import Mathlib

/-!
Shallow embedding of the GameTime RSVP service (TypeScript sources:
`services/rsvp.service.ts`, `utils/validators.ts`, `utils/storage.ts`,
`types/rsvp.types.ts`).  JavaScript `Date` values are modelled as integer
milliseconds since the epoch; `Map` objects are modelled as insertion-ordered
association lists with the exact `get`/`set`/`delete`/`has` semantics of a JS
`Map`; thrown `ValidationError`/`RsvpError` exceptions are modelled with
`Except`.  Every mutating operation returns the post-call in-memory state
paired with its result; a validation failure occurs before any mutation in the
source, so on failure the returned state is the input state.  Persistence
(`saveData`) and logging are side channels that cannot fail in this model; the
storage gateway itself is modelled separately at the bottom of the definitions
section for the save/load round-trip claim.
-/

namespace RsvpSpec

/-- JS `Date`, as milliseconds since the epoch. -/
abbrev Time := Int

/-- Source: `type RsvpStatus = 'Yes' | 'No' | 'Maybe'` -/
inductive RsvpStatus
  | yes
  | no
  | maybe
deriving DecidableEq, Repr

/-- Source: `interface Player { id; name; email }` -/
structure Player where
  id : String
  name : String
  email : String
deriving DecidableEq, Repr

/-- Source: `interface Event { id; name; description; date; location; maxPlayers; archived? }`.
`archived?: boolean` is absent-or-boolean in JS and is only ever read for
truthiness, so an absent field is modelled as `false`. -/
structure Event where
  id : String
  name : String
  description : String
  date : Time
  location : String
  maxPlayers : Int
  archived : Bool := false
deriving DecidableEq, Repr

/-- Source: `interface RsvpEntry { eventId; player; status; updatedAt; notes? }` -/
structure RsvpEntry where
  eventId : String
  player : Player
  status : RsvpStatus
  updatedAt : Time
  notes : Option String
deriving DecidableEq, Repr

/-- Source: `interface WaitlistEntry { eventId; player; joinedAt; notifiedAt? }` -/
structure WaitlistEntry where
  eventId : String
  player : Player
  joinedAt : Time
  notifiedAt : Option Time
deriving DecidableEq, Repr

/-- Source: `interface EventReminder { eventId; lastSentAt; nextSendAt; reminderInterval }` -/
structure EventReminder where
  eventId : String
  lastSentAt : Time
  nextSendAt : Time
  reminderInterval : Int
deriving DecidableEq, Repr

/-- Source: `interface RsvpStats`; the two rates are JS numbers computed by exact
division here (the claims under scrutiny are order/bound properties that hold
in exact arithmetic exactly as in the float arithmetic of the source for the
integer counts involved). -/
structure RsvpStats where
  total : Nat
  confirmed : Nat
  declined : Nat
  maybe : Nat
  attendanceRate : ℚ
  responseRate : ℚ
deriving DecidableEq, Repr

/-- Source: `interface SearchOptions { eventId?; playerName?; status?; startDate? }` -/
structure SearchOptions where
  eventId : Option String := none
  playerName : Option String := none
  status : Option RsvpStatus := none
  startDate : Option Time := none
deriving DecidableEq, Repr

/-- Source: `interface BatchRsvpUpdate { eventId; playerId; status; notes? }` -/
structure BatchRsvpUpdate where
  eventId : String
  playerId : String
  status : RsvpStatus
  notes : Option String := none
deriving DecidableEq, Repr

/-- Source: `interface EventUpdate` — optional fields shallow-merged onto an event. -/
structure EventUpdate where
  name : Option String := none
  description : Option String := none
  date : Option Time := none
  location : Option String := none
  maxPlayers : Option Int := none
deriving DecidableEq, Repr

/-- Source: `interface PlayerUpdate { name?; email? }` -/
structure PlayerUpdate where
  name : Option String := none
  email : Option String := none
deriving DecidableEq, Repr

/-- Source: `interface CleanupOptions { maxAge?; archive?; includeRSVPs? }`.  The two
boolean options are only read for truthiness, so absent is modelled as
`false`; `maxAge` is kept optional because the source reads it with
`options.maxAge || 30`, which treats `0` differently from other values. -/
structure CleanupOptions where
  maxAge : Option Int := none
  archive : Bool := false
  includeRSVPs : Bool := false
deriving DecidableEq, Repr

/-- The two error species that reach callers: `ValidationError(msg)` and the
generic `RsvpError(msg)`. -/
inductive SvcError
  | validation (msg : String)
  | rsvp (msg : String)
deriving DecidableEq, Repr

/-! ### JS `Map` as an insertion-ordered association list -/

/-- Insertion-ordered association list standing for a JS `Map<string, α>`. -/
abbrev AList (α : Type) := List (String × α)

/-- Source: `Map.prototype.get`: first (unique) binding of the key. -/
def aget {α : Type} (m : AList α) (k : String) : Option α :=
  (m.find? (fun p => p.1 = k)).map (fun p => p.2)

/-- Source: `Map.prototype.has`. -/
def ahas {α : Type} (m : AList α) (k : String) : Bool :=
  m.any (fun p => p.1 = k)

/-- Source: `Map.prototype.set`: replace in place (keeping the original position) when
the key is present, otherwise append. -/
def aset {α : Type} (m : AList α) (k : String) (v : α) : AList α :=
  if ahas m k then m.map (fun p => if p.1 = k then (k, v) else p)
  else m ++ [(k, v)]

/-- Source: `Map.prototype.delete` (as used here: drop the binding). -/
def adel {α : Type} (m : AList α) (k : String) : AList α :=
  m.filter (fun p => p.1 ≠ k)

/-- Source: `Array.from(map.values())` in insertion order. -/
def avalues {α : Type} (m : AList α) : List α :=
  m.map (fun p => p.2)

/-! ### Validator (`utils/validators.ts`) -/

/-- A character matched by the JS regex class `\s` (the forms relevant to this
code base: space, tab, newline, carriage return, vertical tab, form feed). -/
def isJsSpace (c : Char) : Bool :=
  c = ' ' || c = '\t' || c = '\n' || c = '\r' || c = '\x0b' || c = '\x0c'

/-- JS falsiness of a string: only the empty string is falsy. -/
def strFalsy (s : String) : Bool :=
  s = ""

/-- Truth of `s.trim().length === 0`: every character is whitespace. -/
def isAllSpace (s : String) : Bool :=
  s.data.all isJsSpace

/-- Splitting a character list at every occurrence of a character (the
behaviour of `String.prototype.split` on a one-character separator, which is
how the email regex is decomposed below). -/
def splitAtChar (c : Char) : List Char → List (List Char)
  | [] => [[]]
  | x :: t =>
      match splitAtChar c t with
      | [] => [[]]
      | h :: r => if x = c then [] :: h :: r else (x :: h) :: r

/-- The email regex `/^[^\s@]+@[^\s@]+\.[^\s@]+$/`: exactly one `@`; a
non-empty whitespace-free local part; a domain part that is whitespace-free
and splits at some dot into two non-empty pieces (i.e. has a dot at an inner
position). -/
def isValidEmail (s : String) : Bool :=
  match splitAtChar '@' s.data with
  | [l, r] =>
      !l.isEmpty && l.all (fun c => !isJsSpace c) &&
      !r.isEmpty && r.all (fun c => !isJsSpace c) &&
      ((r.drop 1).dropLast.contains '.')
  | _ => false

/-- Source: `RsvpValidator.validatePlayer`.  The `typeof`-is-string checks always hold
in the typed model; JS falsiness of a string is emptiness, and
`name.trim().length === 0` is the all-whitespace test. -/
def validatePlayer (p : Player) : Except SvcError Unit :=
  if strFalsy p.id then
    .error (.validation "Player ID is required and must be a string")
  else if strFalsy p.name || isAllSpace p.name then
    .error (.validation "Player name is required and must be a non-empty string")
  else if strFalsy p.email || !isValidEmail p.email then
    .error (.validation "Valid email is required")
  else .ok ()

/-- Source: `RsvpValidator.validateRsvpStatus`: in the typed model a status is always
one of the three enum values, so the membership check always passes. -/
def validateRsvpStatus (_ : RsvpStatus) : Except SvcError Unit :=
  .ok ()

/-- Source: `RsvpValidator.validateEvent` at current time `now`.  A model `Time` is
always a valid instant, so the `isNaN(getTime())` branch cannot fire. -/
def validateEvent (now : Time) (e : Event) : Except SvcError Unit :=
  if strFalsy e.id then
    .error (.validation "Event ID is required and must be a string")
  else if strFalsy e.name || isAllSpace e.name then
    .error (.validation "Event name is required and must be a non-empty string")
  else if strFalsy e.description || isAllSpace e.description then
    .error (.validation "Event description is required and must be a non-empty string")
  else if e.date < now then
    .error (.validation "Event date cannot be in the past")
  else if strFalsy e.location || isAllSpace e.location then
    .error (.validation "Event location is required and must be a non-empty string")
  else if e.maxPlayers < 1 then
    .error (.validation "maxPlayers must be a positive integer")
  else .ok ()

/-! ### RSVP store state (`RsvpService`, in-memory collections) -/

/-- The four in-memory collections of `RsvpService`.  `rsvpEntries` is keyed
by the template string `` `${eventId}-${player.id}` ``. -/
structure StoreState where
  rsvpEntries : AList RsvpEntry
  events : AList Event
  waitlist : AList (List WaitlistEntry)
  reminders : AList EventReminder
deriving DecidableEq, Repr

/-- The freshly constructed (and freshly loaded, absent a snapshot) store. -/
def emptyStore : StoreState :=
  ⟨[], [], [], []⟩

/-- The composite RSVP key `` `${eventId}-${playerId}` ``. -/
def entryKey (eventId playerId : String) : String :=
  eventId ++ "-" ++ playerId

/-- One day of milliseconds (`24 * 60 * 60 * 1000`). -/
def dayMs : Int := 86400000

/-- Ordering used by every `sort((a, b) => a.updatedAt.getTime() - b.updatedAt.getTime())`. -/
def updatedLe (a b : RsvpEntry) : Prop :=
  a.updatedAt ≤ b.updatedAt

instance : DecidableRel updatedLe := fun a b =>
  inferInstanceAs (Decidable (a.updatedAt ≤ b.updatedAt))

instance : IsTotal RsvpEntry updatedLe :=
  ⟨fun a b => Int.le_total a.updatedAt b.updatedAt⟩

instance : IsTrans RsvpEntry updatedLe :=
  ⟨fun _ _ _ hab hbc => Int.le_trans hab hbc⟩

/-- JS `Array.prototype.sort` is stable; a stable comparison sort over the
`updatedAt` ordering is insertion sort. -/
def sortByUpdatedAt (l : List RsvpEntry) : List RsvpEntry :=
  List.insertionSort updatedLe l

/-- Source: `createEvent`: validate, belt-and-braces `maxPlayers <= 0` check, then
`events.set(event.id, event)` (silently overwriting an existing id). -/
def createEvent (now : Time) (s : StoreState) (e : Event) :
    StoreState × Except SvcError Event :=
  match validateEvent now e with
  | .error err => (s, .error err)
  | .ok _ =>
      if e.maxPlayers ≤ 0 then
        (s, .error (.validation "maxPlayers must be a positive number"))
      else
        ({ s with events := aset s.events e.id e }, .ok e)

/-- Source: `getEvent`: plain lookup, no validation. -/
def getEvent (s : StoreState) (eventId : String) : Option Event :=
  aget s.events eventId

/-- Source: `getConfirmedAttendees`: all entries with status `Yes`, ascending by
`updatedAt` (system-wide, all events combined). -/
def getConfirmedAttendees (s : StoreState) : List RsvpEntry :=
  sortByUpdatedAt ((avalues s.rsvpEntries).filter (fun e => e.status = RsvpStatus.yes))

/-- Source: `updateRsvp`: event lookup, player/status validation, the capacity gate
for `Yes` against the system-wide confirmed count, then overwrite the single
entry keyed by `(eventId, player.id)` with a fresh `updatedAt`. -/
def updateRsvp (now : Time) (s : StoreState) (eventId : String) (player : Player)
    (status : RsvpStatus) (notes : Option String) :
    StoreState × Except SvcError RsvpEntry :=
  match aget s.events eventId with
  | none => (s, .error (.validation "Event not found"))
  | some event =>
      match validatePlayer player with
      | .error err => (s, .error err)
      | .ok _ =>
          match validateRsvpStatus status with
          | .error err => (s, .error err)
          | .ok _ =>
              if status = RsvpStatus.yes ∧
                  event.maxPlayers ≤ ((getConfirmedAttendees s).length : Int) then
                (s, .error (.validation "Event is at maximum capacity"))
              else
                let entry : RsvpEntry :=
                  { eventId := eventId, player := player, status := status,
                    updatedAt := now, notes := notes }
                let s' := { s with rsvpEntries := aset s.rsvpEntries (entryKey eventId player.id) entry }
                (s', .ok entry)

/-- Source: `getPlayerById` (private): the player snapshot of the first entry whose
embedded player has the given id. -/
def getPlayerById (s : StoreState) (playerId : String) : Option Player :=
  ((avalues s.rsvpEntries).find? (fun e => e.player.id = playerId)).map (fun e => e.player)

/-- One iteration of the `batchUpdateRsvps` loop: resolve the event, resolve
the player from existing entries, delegate to `updateRsvp` (the source drops
`update.notes` when delegating). -/
def batchStep (now : Time) (s : StoreState) (u : BatchRsvpUpdate) :
    StoreState × Except SvcError RsvpEntry :=
  match aget s.events u.eventId with
  | none => (s, .error (.validation ("Event not found: " ++ u.eventId)))
  | some _ =>
      match getPlayerById s u.playerId with
      | none => (s, .error (.validation ("Player not found: " ++ u.playerId)))
      | some player => updateRsvp now s u.eventId player u.status none

/-- Source: `batchUpdateRsvps`: process updates in order, stopping at the first
failure; entries written by earlier iterations stay applied (each iteration
has already persisted before the failing one throws). -/
def batchUpdateRsvps (now : Time) (s : StoreState) :
    List BatchRsvpUpdate → StoreState × Except SvcError (List RsvpEntry)
  | [] => (s, .ok [])
  | u :: rest =>
      match batchStep now s u with
      | (s1, .error err) => (s1, .error err)
      | (s1, .ok entry) =>
          match batchUpdateRsvps now s1 rest with
          | (s2, .ok entries) => (s2, .ok (entry :: entries))
          | (s2, .error err) => (s2, .error err)

/-- Contiguous-substring test on character lists (the semantics of JS
`String.prototype.includes`). -/
def listContainsSub (pat : List Char) : List Char → Bool
  | [] => pat.isEmpty
  | c :: t => pat.isPrefixOf (c :: t) || listContainsSub pat t

/-- Source: `hay.toLowerCase().includes(pat.toLowerCase())`. -/
def containsCI (hay pat : String) : Bool :=
  listContainsSub (pat.data.map Char.toLower) (hay.data.map Char.toLower)

/-- Source: `getRsvpStats`: system-wide totals and rates. -/
def getRsvpStats (s : StoreState) : RsvpStats :=
  let entries := avalues s.rsvpEntries
  let total := entries.length
  let confirmed := entries.countP (fun e => e.status = RsvpStatus.yes)
  let declined := entries.countP (fun e => e.status = RsvpStatus.no)
  let maybe := entries.countP (fun e => e.status = RsvpStatus.maybe)
  { total := total, confirmed := confirmed, declined := declined, maybe := maybe,
    attendanceRate := if total > 0 then (confirmed : ℚ) / (total : ℚ) * 100 else 0,
    responseRate :=
      if total > 0 then ((confirmed + declined + maybe : ℕ) : ℚ) / (total : ℚ) * 100 else 0 }

/-- Stage `if (options.eventId) { results = results.filter(...eventId...) }`:
the guard skips the stage when the option is absent or the empty string (JS
truthiness). -/
def searchStageEventId (o : SearchOptions) (results : List RsvpEntry) : List RsvpEntry :=
  match o.eventId with
  | some eid => if strFalsy eid then results else results.filter (fun e => e.eventId = eid)
  | none => results

/-- Stage `if (options.playerName) { results = results.filter(...includes...) }`. -/
def searchStagePlayerName (o : SearchOptions) (results : List RsvpEntry) : List RsvpEntry :=
  match o.playerName with
  | some pn =>
      if strFalsy pn then results
      else results.filter (fun e => containsCI e.player.name pn)
  | none => results

/-- Stage `if (options.status) { results = results.filter(...status...) }`
(a status value is never falsy). -/
def searchStageStatus (o : SearchOptions) (results : List RsvpEntry) : List RsvpEntry :=
  match o.status with
  | some st => results.filter (fun e => e.status = st)
  | none => results

/-- Stage `if (options.startDate) { const event = this.events.get(options.eventId!);
if (event) { results = results.filter(entry => event.date >= options.startDate!) } }`:
the lookup uses `options.eventId` directly (`get(undefined)` misses), and the
filter predicate compares the event's date, ignoring the entry. -/
def searchStageStartDate (s : StoreState) (o : SearchOptions)
    (results : List RsvpEntry) : List RsvpEntry :=
  match o.startDate with
  | some sd =>
      match (match o.eventId with
             | some eid => aget s.events eid
             | none => none) with
      | some event => results.filter (fun _ => sd ≤ event.date)
      | none => results
  | none => results

/-- Source: `searchRsvps`: the four staged filters applied to the full entry
list in source order, then the stable ascending `updatedAt` sort. -/
def searchRsvps (s : StoreState) (o : SearchOptions) : List RsvpEntry :=
  sortByUpdatedAt
    (searchStageStartDate s o
      (searchStageStatus o
        (searchStagePlayerName o
          (searchStageEventId o (avalues s.rsvpEntries)))))

/-- The shallow merge `{ ...event, ...update }` (an absent optional field
leaves the original field in place; `archived` is not part of `EventUpdate`). -/
def applyEventUpdate (e : Event) (u : EventUpdate) : Event :=
  { e with
    name := u.name.getD e.name,
    description := u.description.getD e.description,
    date := u.date.getD e.date,
    location := u.location.getD e.location,
    maxPlayers := u.maxPlayers.getD e.maxPlayers }

/-- The shallow merge `{ ...player, ...update }` (`id` is not part of
`PlayerUpdate`). -/
def applyPlayerUpdate (p : Player) (u : PlayerUpdate) : Player :=
  { p with name := u.name.getD p.name, email := u.email.getD p.email }

/-- Source: `updateEvent`: look up, shallow-merge, re-validate the merged event as a
whole, replace. -/
def updateEvent (now : Time) (s : StoreState) (eventId : String) (u : EventUpdate) :
    StoreState × Except SvcError Event :=
  match aget s.events eventId with
  | none => (s, .error (.validation "Event not found"))
  | some event =>
      let updatedEvent := applyEventUpdate event u
      match validateEvent now updatedEvent with
      | .error err => (s, .error err)
      | .ok _ =>
          ({ s with events := aset s.events eventId updatedEvent }, .ok updatedEvent)

/-- Source: `deleteEvent`: existence check, then delete every RSVP entry referencing
the event and the event itself; waitlist and reminder collections are not
touched. -/
def deleteEvent (s : StoreState) (eventId : String) :
    StoreState × Except SvcError Unit :=
  if ahas s.events eventId then
    let s' := { s with
      rsvpEntries := s.rsvpEntries.filter (fun p => p.2.eventId ≠ eventId),
      events := adel s.events eventId }
    (s', .ok ())
  else
    (s, .error (.validation "Event not found"))

/-- Source: `cancelRsvp`: delete the single entry keyed by `(eventId, playerId)`. -/
def cancelRsvp (s : StoreState) (eventId playerId : String) :
    StoreState × Except SvcError Unit :=
  let key := entryKey eventId playerId
  if ahas s.rsvpEntries key then
    ({ s with rsvpEntries := adel s.rsvpEntries key }, .ok ())
  else
    (s, .error (.validation "RSVP not found"))

/-- Source: `getEventRsvps`: existence check, then the event's entries ascending by
`updatedAt` (read-only). -/
def getEventRsvps (s : StoreState) (eventId : String) :
    Except SvcError (List RsvpEntry) :=
  if ahas s.events eventId then
    .ok (sortByUpdatedAt ((avalues s.rsvpEntries).filter (fun e => e.eventId = eventId)))
  else
    .error (.validation "Event not found")

/-- Source: `updatePlayer`: resolve the player from existing entries, merge,
re-validate, rewrite the embedded player snapshot in every entry of that
player (each entry keeps its key, position and all other fields). -/
def updatePlayer (s : StoreState) (playerId : String) (u : PlayerUpdate) :
    StoreState × Except SvcError Unit :=
  match getPlayerById s playerId with
  | none => (s, .error (.validation "Player not found"))
  | some player =>
      let updatedPlayer := applyPlayerUpdate player u
      match validatePlayer updatedPlayer with
      | .error err => (s, .error err)
      | .ok _ =>
          let rewrite := fun (p : String × RsvpEntry) =>
            if p.2.player.id = playerId then (p.1, { p.2 with player := updatedPlayer }) else p
          ({ s with rsvpEntries := s.rsvpEntries.map rewrite }, .ok ())

/-- Source: `removePlayer`: resolve the player from existing entries, then delete
every entry of that player. -/
def removePlayer (s : StoreState) (playerId : String) :
    StoreState × Except SvcError Unit :=
  match getPlayerById s playerId with
  | none => (s, .error (.validation "Player not found"))
  | some _ =>
      ({ s with rsvpEntries := s.rsvpEntries.filter (fun p => p.2.player.id ≠ playerId) }, .ok ())

/-- Source: `addToWaitlist`: event must exist and the player must hold no RSVP entry
for it; append a waitlist entry with `joinedAt = now`. -/
def addToWaitlist (now : Time) (s : StoreState) (eventId : String) (player : Player) :
    StoreState × Except SvcError WaitlistEntry :=
  match aget s.events eventId with
  | none => (s, .error (.validation "Event not found"))
  | some _ =>
      match aget s.rsvpEntries (entryKey eventId player.id) with
      | some _ => (s, .error (.validation "Player already has an RSVP for this event"))
      | none =>
          let entry : WaitlistEntry :=
            { eventId := eventId, player := player, joinedAt := now, notifiedAt := none }
          let cur := (aget s.waitlist eventId).getD []
          ({ s with waitlist := aset s.waitlist eventId (cur ++ [entry]) }, .ok entry)

/-- Source: `notifyWaitlist`: available spots = `maxPlayers` minus the system-wide
confirmed count; stamp `notifiedAt = now` on that many waitlist entries in
FIFO order and return their players (entries are neither removed nor turned
into RSVPs).  When the event has no waitlist array the loop body never runs
and the state is unchanged. -/
def notifyWaitlist (now : Time) (s : StoreState) (eventId : String) :
    StoreState × Except SvcError (List Player) :=
  match aget s.events eventId with
  | none => (s, .error (.validation "Event not found"))
  | some event =>
      let currentPlayers := (getConfirmedAttendees s).length
      let availableSpots := event.maxPlayers - (currentPlayers : Int)
      if availableSpots ≤ 0 then (s, .ok [])
      else
        match aget s.waitlist eventId with
        | none => (s, .ok [])
        | some wl =>
            let k := availableSpots.toNat
            let notified := (wl.take k).map (fun w => { w with notifiedAt := some now })
            let wl' := notified ++ wl.drop k
            ({ s with waitlist := aset s.waitlist eventId wl' },
             .ok (notified.map (fun w => w.player)))

/-- Source: `setupReminders`: overwrite the event's reminder with
`lastSentAt = now`, `nextSendAt = now + interval` days. -/
def setupReminders (now : Time) (s : StoreState) (eventId : String) (interval : Int) :
    StoreState × Except SvcError Unit :=
  match aget s.events eventId with
  | none => (s, .error (.validation "Event not found"))
  | some _ =>
      let reminder : EventReminder :=
        { eventId := eventId, lastSentAt := now, nextSendAt := now + interval * dayMs,
          reminderInterval := interval }
      ({ s with reminders := aset s.reminders eventId reminder }, .ok ())

/-- Source: `sendReminders`: for every reminder with `nextSendAt <= now` whose event
still exists, advance its timestamps and collect the event. -/
def sendReminders (now : Time) (s : StoreState) :
    StoreState × Except SvcError (List Event) :=
  let step := fun (p : String × EventReminder) =>
    if p.2.nextSendAt ≤ now then
      match aget s.events p.1 with
      | some ev =>
          ((p.1, { p.2 with lastSentAt := now,
                            nextSendAt := now + p.2.reminderInterval * dayMs }), some ev)
      | none => (p, (none : Option Event))
    else (p, (none : Option Event))
  let results := s.reminders.map step
  ({ s with reminders := results.map (fun r => r.1) },
   .ok (results.filterMap (fun r => r.2)))

/-- The body of the `cleanupData` loop over the events map: for every event
dated strictly before the cutoff, archive it in place or delete-and-count it,
and (independently) when `includeRSVPs` is set delete-and-count its RSVP
entries.  Returns the surviving events, the surviving entries and the two
counters. -/
def cleanupGo (cutoff : Time) (archive includeRSVPs : Bool) :
    List (String × Event) → AList RsvpEntry →
    List (String × Event) × AList RsvpEntry × Nat × Nat
  | [], entries => ([], entries, 0, 0)
  | (eid, ev) :: rest, entries =>
      if ev.date < cutoff then
        let removed := if includeRSVPs then entries.countP (fun p => p.2.eventId = eid) else 0
        let entries' := if includeRSVPs then entries.filter (fun p => p.2.eventId ≠ eid) else entries
        let (restEvents, entriesF, ec, rc) := cleanupGo cutoff archive includeRSVPs rest entries'
        if archive then
          ((eid, { ev with archived := true }) :: restEvents, entriesF, ec, removed + rc)
        else
          (restEvents, entriesF, ec + 1, removed + rc)
      else
        let (restEvents, entriesF, ec, rc) := cleanupGo cutoff archive includeRSVPs rest entries
        ((eid, ev) :: restEvents, entriesF, ec, rc)

/-- Source: `cleanupData`: cutoff = `now - maxAge` days, where
`options.maxAge || 30` makes both an absent and a zero `maxAge` fall back to
30; returns `{ events: <deleted events>, rsvps: <deleted entries> }`. -/
def cleanupData (now : Time) (s : StoreState) (o : CleanupOptions) :
    StoreState × Except SvcError (Nat × Nat) :=
  let maxAge : Int := match o.maxAge with | none => 30 | some m => if m = 0 then 30 else m
  let cutoff := now - maxAge * dayMs
  let (events', entries', ec, rc) :=
    cleanupGo cutoff o.archive o.includeRSVPs s.events s.rsvpEntries
  ({ s with events := events', rsvpEntries := entries' }, .ok (ec, rc))

/-! ### Derived quantities and invariants named by the specification -/

/-- System-wide number of entries with status `Yes` (the "confirmed
attendees" count used by the capacity check). -/
def yesCount (s : StoreState) : Nat :=
  (avalues s.rsvpEntries).countP (fun e => e.status = RsvpStatus.yes)

/-- Number of RSVP entries with the given `eventId` and status `Yes`. -/
def eventYesCount (s : StoreState) (eventId : String) : Nat :=
  (avalues s.rsvpEntries).countP
    (fun e => e.eventId = eventId && e.status = RsvpStatus.yes)

/-- The per-event capacity invariant claimed in the data-model section: for
every event in the store, its `Yes` entries do not outnumber `maxPlayers`. -/
def CapacityInvariant (s : StoreState) : Prop :=
  ∀ p ∈ s.events, ((eventYesCount s p.2.id : Int) ≤ p.2.maxPlayers)

instance (s : StoreState) : Decidable (CapacityInvariant s) :=
  List.decidableBAll _ s.events

/-- Structural well-formedness that every state built through a JS `Map`
enjoys: unique map keys, and every event stored under its own id (both
`createEvent` and `updateEvent` key the record by the event's id). -/
def StoreWF (s : StoreState) : Prop :=
  (s.events.map (fun p => p.1)).Nodup
  ∧ (∀ p ∈ s.events, p.2.id = p.1)
  ∧ (s.rsvpEntries.map (fun p => p.1)).Nodup

instance (s : StoreState) : Decidable (StoreWF s) := by
  unfold StoreWF; infer_instance

/-- States reachable from the freshly constructed store by sequences of the
public mutating operations (at arbitrary call times).  Read-only operations
do not change the state, and a failed mutating operation returns the input
state unchanged, so this inductive covers every sequence of public calls. -/
inductive Reach : StoreState → Prop
  | init : Reach emptyStore
  | createEvent {s : StoreState} (now : Time) (e : Event) :
      Reach s → Reach (RsvpSpec.createEvent now s e).1
  | updateRsvp {s : StoreState} (now : Time) (eid : String) (p : Player)
      (st : RsvpStatus) (n : Option String) :
      Reach s → Reach (RsvpSpec.updateRsvp now s eid p st n).1
  | batchUpdateRsvps {s : StoreState} (now : Time) (us : List BatchRsvpUpdate) :
      Reach s → Reach (RsvpSpec.batchUpdateRsvps now s us).1
  | updateEvent {s : StoreState} (now : Time) (eid : String) (u : EventUpdate) :
      Reach s → Reach (RsvpSpec.updateEvent now s eid u).1
  | deleteEvent {s : StoreState} (eid : String) :
      Reach s → Reach (RsvpSpec.deleteEvent s eid).1
  | cancelRsvp {s : StoreState} (eid pid : String) :
      Reach s → Reach (RsvpSpec.cancelRsvp s eid pid).1
  | updatePlayer {s : StoreState} (pid : String) (u : PlayerUpdate) :
      Reach s → Reach (RsvpSpec.updatePlayer s pid u).1
  | removePlayer {s : StoreState} (pid : String) :
      Reach s → Reach (RsvpSpec.removePlayer s pid).1
  | addToWaitlist {s : StoreState} (now : Time) (eid : String) (p : Player) :
      Reach s → Reach (RsvpSpec.addToWaitlist now s eid p).1
  | notifyWaitlist {s : StoreState} (now : Time) (eid : String) :
      Reach s → Reach (RsvpSpec.notifyWaitlist now s eid).1
  | setupReminders {s : StoreState} (now : Time) (eid : String) (i : Int) :
      Reach s → Reach (RsvpSpec.setupReminders now s eid i).1
  | sendReminders {s : StoreState} (now : Time) :
      Reach s → Reach (RsvpSpec.sendReminders now s).1
  | cleanupData {s : StoreState} (now : Time) (o : CleanupOptions) :
      Reach s → Reach (RsvpSpec.cleanupData now s o).1

/-! ### The search filter as worded by the specification -/

/-- Condition "eventId by exact match" when an eventId filter is provided. -/
def eventIdMatches (oe : Option String) (e : RsvpEntry) : Bool :=
  match oe with
  | some eid => e.eventId = eid
  | none => true

/-- Condition "playerName by case-insensitive substring of the entry's
player name" when a playerName filter is provided. -/
def playerNameMatches (opn : Option String) (e : RsvpEntry) : Bool :=
  match opn with
  | some pn => containsCI e.player.name pn
  | none => true

/-- Condition "status by exact match" when a status filter is provided. -/
def statusMatches (ost : Option RsvpStatus) (e : RsvpEntry) : Bool :=
  match ost with
  | some st => e.status = st
  | none => true

/-- Condition "the startDate filter applied only when eventId is also
provided and comparing the referenced event's date (not the entry's
timestamp) against startDate". -/
def startDateMatches (s : StoreState) (oe : Option String) (osd : Option Time)
    (_ : RsvpEntry) : Bool :=
  match osd with
  | some sd =>
      match oe with
      | some eid =>
          match aget s.events eid with
          | some event => sd ≤ event.date
          | none => true
      | none => true
  | none => true

/-- An entry "passing each provided filter", in the specification's words. -/
def specMatches (s : StoreState) (o : SearchOptions) (e : RsvpEntry) : Bool :=
  eventIdMatches o.eventId e
    && (playerNameMatches o.playerName e
      && (statusMatches o.status e
        && startDateMatches s o.eventId o.startDate e))

/-! ### Persistence gateway (`utils/storage.ts`) -/

/-- A runtime JavaScript value as it lives in the snapshot handed to
`FileStorage.save`: JSON-representable data plus `Date` objects. -/
inductive JsVal
  | vnull
  | vbool (b : Bool)
  | vnum (n : Int)
  | vstr (s : String)
  | vdate (t : Time)
  | varr (elems : List JsVal)
  | vobj (fields : List (String × JsVal))

/-- An injective text rendering of an instant, standing for
`Date.prototype.toISOString` (its exact digit layout does not matter to any
claim; what matters is that the serialized form is a string encoding the
millisecond value). -/
def isoString (t : Time) : String :=
  "ISO:" ++ toString t

mutual
/-- Effect of `JSON.stringify` followed by `JSON.parse` (no reviver, as in
`FileStorage.load`) on a runtime value: a `Date` is serialized through
`Date.prototype.toJSON` into its ISO string and comes back as a plain
string; every other JSON-representable construct round-trips unchanged. -/
def jsonRoundTrip : JsVal → JsVal
  | .vnull => .vnull
  | .vbool b => .vbool b
  | .vnum n => .vnum n
  | .vstr s => .vstr s
  | .vdate t => .vstr (isoString t)
  | .varr l => .varr (jsonRoundTripList l)
  | .vobj l => .vobj (jsonRoundTripFields l)

/-- Elementwise `jsonRoundTrip` on an array. -/
def jsonRoundTripList : List JsVal → List JsVal
  | [] => []
  | v :: rest => jsonRoundTrip v :: jsonRoundTripList rest

/-- Fieldwise `jsonRoundTrip` on an object. -/
def jsonRoundTripFields : List (String × JsVal) → List (String × JsVal)
  | [] => []
  | (k, v) :: rest => (k, jsonRoundTrip v) :: jsonRoundTripFields rest
end

/-- A `Player` as the runtime object it is in memory. -/
def playerToJs (p : Player) : JsVal :=
  .vobj [("id", .vstr p.id), ("name", .vstr p.name), ("email", .vstr p.email)]

/-- An `RsvpStatus` as its runtime string. -/
def statusToJs : RsvpStatus → JsVal
  | .yes => .vstr "Yes"
  | .no => .vstr "No"
  | .maybe => .vstr "Maybe"

/-- An `RsvpEntry` as the runtime object it is in memory (`updatedAt` is a
`Date` object; an absent optional `notes` is an absent key, which is also
how `JSON.stringify` treats an `undefined` property). -/
def entryToJs (e : RsvpEntry) : JsVal :=
  .vobj ([("eventId", .vstr e.eventId), ("player", playerToJs e.player),
          ("status", statusToJs e.status), ("updatedAt", .vdate e.updatedAt)]
    ++ (match e.notes with | some n => [("notes", .vstr n)] | none => []))

/-- An `Event` as the runtime object it is in memory (`date` is a `Date`
object; the optional `archived` flag is a key only once set). -/
def eventToJs (e : Event) : JsVal :=
  .vobj ([("id", .vstr e.id), ("name", .vstr e.name),
          ("description", .vstr e.description), ("date", .vdate e.date),
          ("location", .vstr e.location), ("maxPlayers", .vnum e.maxPlayers)]
    ++ (if e.archived then [("archived", .vbool true)] else []))

/-- A `WaitlistEntry` as the runtime object it is in memory. -/
def waitlistEntryToJs (w : WaitlistEntry) : JsVal :=
  .vobj ([("eventId", .vstr w.eventId), ("player", playerToJs w.player),
          ("joinedAt", .vdate w.joinedAt)]
    ++ (match w.notifiedAt with | some t => [("notifiedAt", .vdate t)] | none => []))

/-- An `EventReminder` as the runtime object it is in memory. -/
def reminderToJs (r : EventReminder) : JsVal :=
  .vobj [("eventId", .vstr r.eventId), ("lastSentAt", .vdate r.lastSentAt),
         ("nextSendAt", .vdate r.nextSendAt), ("reminderInterval", .vnum r.reminderInterval)]

/-- The four key→value collections seen as runtime values, the common shape
of the in-memory snapshot passed to `save` and of the maps `load` rebuilds
with `new Map(...)` from the parsed pair lists. -/
structure SnapshotJs where
  rsvpEntries : AList JsVal
  events : AList JsVal
  waitlist : AList JsVal
  reminders : AList JsVal

/-- The in-memory snapshot handed to `FileStorage.save`, as runtime values. -/
def inMemoryJs (d : StoreState) : SnapshotJs where
  rsvpEntries := d.rsvpEntries.map (fun p => (p.1, entryToJs p.2))
  events := d.events.map (fun p => (p.1, eventToJs p.2))
  waitlist := d.waitlist.map (fun p => (p.1, .varr (p.2.map waitlistEntryToJs)))
  reminders := d.reminders.map (fun p => (p.1, reminderToJs p.2))

/-- The collections produced by `FileStorage.load` from the file that
`FileStorage.save` has just written for snapshot `d`: `save` serializes each
collection with `Array.from(map.entries())` under `JSON.stringify`, and
`load` re-wraps the parsed pair lists with `new Map(...)` — no reviver
reconstructs `Date` objects, so every value is the `jsonRoundTrip` image of
the in-memory value. -/
def saveThenLoad (d : StoreState) : SnapshotJs where
  rsvpEntries := d.rsvpEntries.map (fun p => (p.1, jsonRoundTrip (entryToJs p.2)))
  events := d.events.map (fun p => (p.1, jsonRoundTrip (eventToJs p.2)))
  waitlist := d.waitlist.map (fun p => (p.1, jsonRoundTrip (.varr (p.2.map waitlistEntryToJs))))
  reminders := d.reminders.map (fun p => (p.1, jsonRoundTrip (reminderToJs p.2)))

/-! ### Supporting lemmas -/

lemma strFalsy_false {s : String} (h : s ≠ "") : strFalsy s = false := by
  simp [strFalsy, h]

lemma mem_avalues_aset {α : Type} {m : AList α} {k : String} {v a : α}
    (h : a ∈ avalues (aset m k v)) : a ∈ avalues m ∨ a = v := by
  unfold aset at h
  split at h
  · unfold avalues at h ⊢
    rw [List.map_map, List.mem_map] at h
    obtain ⟨p, hp, hpa⟩ := h
    by_cases hk : p.1 = k
    · right
      simpa [Function.comp, hk] using hpa.symm
    · left
      rw [List.mem_map]
      exact ⟨p, hp, by simpa [Function.comp, hk] using hpa⟩
  · unfold avalues at h ⊢
    rw [List.map_append, List.mem_append] at h
    rcases h with h | h
    · exact Or.inl h
    · right
      simpa using h

lemma map_replace_of_no_key {α : Type} {m : AList α} {k : String} {v : α}
    (h : ∀ p ∈ m, p.1 ≠ k) :
    m.map (fun p => if p.1 = k then (k, v) else p) = m := by
  induction m with
  | nil => rfl
  | cons p t ih =>
      have hp : p.1 ≠ k := h p (List.mem_cons_self p t)
      have ht : ∀ q ∈ t, q.1 ≠ k := fun q hq => h q (List.mem_cons_of_mem p hq)
      simp [hp, ih ht]

lemma countP_map_replace {α : Type} (q : α → Bool) (m : AList α) (k : String) (v : α)
    (hnd : (m.map (fun p => p.1)).Nodup) :
    ((m.map (fun p => if p.1 = k then (k, v) else p)).map (fun p => p.2)).countP q
      ≤ (m.map (fun p => p.2)).countP q + (if q v then 1 else 0) := by
  induction m with
  | nil => simp
  | cons p t ih =>
      have hnd' : (t.map (fun p => p.1)).Nodup := (List.nodup_cons.1 (by simpa using hnd)).2
      have hknot : p.1 ∉ t.map (fun p => p.1) := (List.nodup_cons.1 (by simpa using hnd)).1
      by_cases hk : p.1 = k
      · have ht : ∀ x ∈ t, x.1 ≠ k := by
          intro x hx hxk
          exact hknot (by rw [hk, ← hxk]; exact List.mem_map_of_mem _ hx)
        rw [List.map_cons, List.map_cons, List.map_cons, if_pos hk,
          map_replace_of_no_key ht, List.countP_cons, List.countP_cons]
        rcases hqv : q v <;> rcases hqp : q p.2 <;> simp [hqv, hqp]
      · rw [List.map_cons, List.map_cons, List.map_cons, if_neg hk,
          List.countP_cons, List.countP_cons]
        have := ih hnd'
        rcases hqv : q v <;> rcases hqp : q p.2 <;> simp [hqv, hqp] at this ⊢ <;> omega

lemma countP_aset_le {α : Type} (q : α → Bool) (m : AList α) (k : String) (v : α)
    (hnd : (m.map (fun p => p.1)).Nodup) :
    (avalues (aset m k v)).countP q
      ≤ (avalues m).countP q + (if q v then 1 else 0) := by
  unfold aset avalues
  split
  · exact countP_map_replace q m k v hnd
  · rw [List.map_append, List.countP_append]
    simp [List.countP_cons]

lemma countP_aset_le_of_false {α : Type} {q : α → Bool} {m : AList α} {k : String} {v : α}
    (hnd : (m.map (fun p => p.1)).Nodup) (hv : q v = false) :
    (avalues (aset m k v)).countP q ≤ (avalues m).countP q := by
  have h := countP_aset_le q m k v hnd
  simpa [hv] using h

lemma countP_aset_le_of_true {α : Type} {q : α → Bool} {m : AList α} {k : String} {v : α}
    (hnd : (m.map (fun p => p.1)).Nodup) :
    (avalues (aset m k v)).countP q ≤ (avalues m).countP q + 1 := by
  have h := countP_aset_le q m k v hnd
  cases hv : q v
  · simp [hv] at h
    omega
  · simpa [hv] using h

lemma aget_eq_of_mem_nodup {α : Type} {m : AList α} {k : String} {v : α}
    (hnd : (m.map (fun p => p.1)).Nodup) (h : (k, v) ∈ m) : aget m k = some v := by
  induction m with
  | nil => cases h
  | cons p t ih =>
      rcases List.mem_cons.1 h with h | h
      · unfold aget
        rw [List.find?_cons_of_pos _ (by simp [← h])]
        simp [← h]
      · have hnd' : (t.map (fun p => p.1)).Nodup := (List.nodup_cons.1 (by simpa using hnd)).2
        have hknot : p.1 ∉ t.map (fun p => p.1) := (List.nodup_cons.1 (by simpa using hnd)).1
        have hk : p.1 ≠ k := by
          intro hk
          exact hknot (by rw [hk]; exact List.mem_map_of_mem _ h)
        unfold aget at ih ⊢
        rw [List.find?_cons_of_neg _ (by simp [hk])]
        exact ih hnd' h

lemma ahas_adel {α : Type} (m : AList α) (k : String) : ahas (adel m k) k = false := by
  unfold ahas adel
  rw [List.any_eq_false]
  intro p hp
  simp only [List.mem_filter] at hp
  simpa using hp.2

lemma getConfirmedAttendees_length (s : StoreState) :
    (getConfirmedAttendees s).length = yesCount s := by
  unfold getConfirmedAttendees yesCount sortByUpdatedAt
  rw [(List.perm_insertionSort updatedLe _).length_eq, List.countP_eq_length_filter]

lemma count_three_statuses (l : List RsvpEntry) :
    l.countP (fun e => e.status = RsvpStatus.yes)
      + l.countP (fun e => e.status = RsvpStatus.no)
      + l.countP (fun e => e.status = RsvpStatus.maybe) = l.length := by
  induction l with
  | nil => rfl
  | cons e t ih =>
      cases he : e.status <;> simp [List.countP_cons, he] <;> omega

lemma updateRsvp_ok_state {now : Time} {s : StoreState} {eid : String} {p : Player}
    {st : RsvpStatus} {n : Option String} {e : RsvpEntry}
    (h : (updateRsvp now s eid p st n).2 = .ok e) :
    (updateRsvp now s eid p st n).1
        = { s with rsvpEntries := aset s.rsvpEntries (entryKey eid p.id) e }
    ∧ e = { eventId := eid, player := p, status := st, updatedAt := now, notes := n }
    ∧ ∃ ev, aget s.events eid = some ev
        ∧ (st = RsvpStatus.yes → ((getConfirmedAttendees s).length : Int) < ev.maxPlayers) := by
  unfold updateRsvp at h ⊢
  cases hev : aget s.events eid with
  | none => simp [hev] at h
  | some ev =>
      cases hvp : validatePlayer p with
      | error err => simp [hev, hvp] at h
      | ok u =>
          by_cases hcond : st = RsvpStatus.yes ∧
              ev.maxPlayers ≤ ((getConfirmedAttendees s).length : Int)
          · simp [hev, hvp, validateRsvpStatus, hcond] at h
          · simp only [hev, hvp, validateRsvpStatus, if_neg hcond, Except.ok.injEq] at h ⊢
            subst h
            refine ⟨rfl, rfl, ev, rfl, ?_⟩
            intro hyes
            rcases not_and_or.1 hcond with hc | hc
            · exact absurd hyes hc
            · exact lt_of_not_le hc

lemma validatePlayer_error_msgs {p : Player} {err : SvcError}
    (h : validatePlayer p = .error err) :
    err = .validation "Player ID is required and must be a string"
    ∨ err = .validation "Player name is required and must be a non-empty string"
    ∨ err = .validation "Valid email is required" := by
  unfold validatePlayer at h
  split at h
  · injection h with h
    exact Or.inl h.symm
  · split at h
    · injection h with h
      exact Or.inr (Or.inl h.symm)
    · split at h
      · injection h with h
        exact Or.inr (Or.inr h.symm)
      · cases h

/-! ### Sample data for the concrete scenario theorems -/

/-- An event with capacity 2, dated one day after epoch. -/
def sampleEventTwo : Event :=
  { id := "1", name := "Game Night", description := "weekly", date := dayMs,
    location := "Hall", maxPlayers := 2 }

/-- Sample player `A`. -/
def sampleA : Player := { id := "a", name := "Alice", email := "a@b.c" }

/-- Sample player `B`. -/
def sampleB : Player := { id := "b", name := "Bob", email := "b@b.c" }

/-- Sample player `C`. -/
def sampleC : Player := { id := "c", name := "Carol", email := "c@b.c" }

/-! ### C3: the per-event capacity invariant -/

/-- State after `createEvent` and two `Yes` RSVPs (players A and B). -/
def c3Full : StoreState :=
  (updateRsvp 2
    ((updateRsvp 1 ((createEvent 0 emptyStore sampleEventTwo).1) "1" sampleA
        RsvpStatus.yes none).1)
    "1" sampleB RsvpStatus.yes none).1

/-- The reachable state violating the invariant: capacity shrunk to 1 with
two confirmed entries still present. -/
def c3Bad : StoreState :=
  (updateEvent 3 c3Full "1" { maxPlayers := some 1 }).1

/-- C3 counterexample: the claimed invariant does not hold in every reachable
state.  From the empty store: create event "1" with `maxPlayers` 2, record
two `Yes` RSVPs, then `updateEvent` shrinks `maxPlayers` to 1 — the merged
event re-validates (the validator only checks `maxPlayers >= 1`, never the
existing `Yes` count), leaving a reachable state with two `Yes` entries for
an event whose capacity is 1. -/
theorem c3_counterexample : Reach c3Bad ∧ ¬ CapacityInvariant c3Bad := by
  constructor
  · exact Reach.updateEvent 3 "1" { maxPlayers := some 1 }
      (Reach.updateRsvp 2 "1" sampleB RsvpStatus.yes none
        (Reach.updateRsvp 1 "1" sampleA RsvpStatus.yes none
          (Reach.createEvent 0 sampleEventTwo Reach.init)))
  · decide

/-- C3 (amended): the invariant is not preserved by every public operation
(`updateEvent` can shrink `maxPlayers` below the current `Yes` count, and
`createEvent` can overwrite or re-create an id with orphaned entries), but
the capacity-gated operation itself preserves it: a successful `updateRsvp`
on a well-formed store satisfying the invariant yields a store satisfying it
— and the capacity check only gates writes whose new status is `Yes`: a
write with a non-`Yes` status (in particular changing an existing `Yes`
entry to `No`/`Maybe` at capacity) is never rejected with the capacity
error. -/
theorem updateRsvp_preserves_capacity :
    (∀ (now : Time) (s : StoreState) (eid : String) (p : Player) (st : RsvpStatus)
        (n : Option String) (e : RsvpEntry),
      StoreWF s → CapacityInvariant s → (updateRsvp now s eid p st n).2 = .ok e →
      CapacityInvariant (updateRsvp now s eid p st n).1)
    ∧ ∀ (now : Time) (s : StoreState) (eid : String) (p : Player) (n : Option String)
        (st : RsvpStatus), st ≠ RsvpStatus.yes →
      (updateRsvp now s eid p st n).2 ≠ .error (.validation "Event is at maximum capacity") := by
  constructor
  · intro now s eid p st n e hwf hinv hok
    obtain ⟨hs1, he, ev0, hev0, hcap⟩ := updateRsvp_ok_state hok
    rw [hs1]
    unfold CapacityInvariant
    intro q hq
    have hq' : q ∈ s.events := hq
    change ((avalues (aset s.rsvpEntries (entryKey eid p.id) e)).countP
        (fun e' => e'.eventId = q.2.id && e'.status = RsvpStatus.yes) : Int)
        ≤ q.2.maxPlayers
    by_cases hqe : e.eventId = q.2.id ∧ e.status = RsvpStatus.yes
    · -- the freshly written entry counts for this event; `st = Yes` and the
      -- capacity check bounds the whole system-wide `Yes` count
      have hst : st = RsvpStatus.yes := by
        have := hqe.2
        rw [he] at this
        exact this
      have heid : eid = q.2.id := by
        have := hqe.1
        rw [he] at this
        exact this
      have hkey : q.1 = eid := by rw [heid, hwf.2.1 q hq']
      have hq2 : aget s.events q.1 = some q.2 := aget_eq_of_mem_nodup hwf.1 hq'
      have hev0q : ev0 = q.2 := by
        rw [hkey, hev0] at hq2
        exact Option.some_inj.mp hq2
      have hmono : ((avalues (aset s.rsvpEntries (entryKey eid p.id) e)).countP
            (fun e' => e'.eventId = q.2.id && e'.status = RsvpStatus.yes))
          ≤ ((avalues (aset s.rsvpEntries (entryKey eid p.id) e)).countP
            (fun e' => e'.status = RsvpStatus.yes)) := by
        refine List.countP_mono_left ?_
        intro x _ hx
        exact (Bool.and_eq_true .. ▸ hx).2
      have hyes : ((avalues (aset s.rsvpEntries (entryKey eid p.id) e)).countP
            (fun e' => e'.status = RsvpStatus.yes))
          ≤ (avalues s.rsvpEntries).countP (fun e' => e'.status = RsvpStatus.yes) + 1 :=
        countP_aset_le_of_true hwf.2.2
      have hcap' := hcap hst
      rw [getConfirmedAttendees_length] at hcap'
      unfold yesCount at hcap'
      rw [hev0q] at hcap'
      omega
    · -- the freshly written entry does not count toward this event's total
      have hqv : ((fun e' => e'.eventId = q.2.id && e'.status = RsvpStatus.yes) e) = false := by
        rcases not_and_or.1 hqe with hc | hc <;> simp [hc]
      have hle : ((avalues (aset s.rsvpEntries (entryKey eid p.id) e)).countP
            (fun e' => e'.eventId = q.2.id && e'.status = RsvpStatus.yes))
          ≤ (avalues s.rsvpEntries).countP
            (fun e' => e'.eventId = q.2.id && e'.status = RsvpStatus.yes) :=
        countP_aset_le_of_false hwf.2.2 hqv
      have hbase := hinv q hq'
      unfold eventYesCount at hbase
      omega
  · intro now s eid p n st hst
    unfold updateRsvp
    cases hev : aget s.events eid with
    | none => simp
    | some ev =>
        cases hvp : validatePlayer p with
        | error err =>
            rcases validatePlayer_error_msgs hvp with h | h | h <;> simp [hvp, h]
        | ok u =>
            dsimp only [validateRsvpStatus]
            split
            · rename_i hcond
              exact absurd hcond.1 hst
            · simp

/-- C3 witness: a concrete well-formed one-event store on which a `Yes`
write succeeds and preserves the invariant, and a `No` write is not
capacity-rejected. -/
theorem updateRsvp_preserves_capacity_witness :
    CapacityInvariant
        (updateRsvp 1 ((createEvent 0 emptyStore sampleEventTwo).1) "1" sampleA
          RsvpStatus.yes none).1
    ∧ (updateRsvp 1 ((createEvent 0 emptyStore sampleEventTwo).1) "1" sampleA
          RsvpStatus.no none).2
        ≠ .error (.validation "Event is at maximum capacity") :=
  ⟨updateRsvp_preserves_capacity.1 1 ((createEvent 0 emptyStore sampleEventTwo).1) "1" sampleA
      RsvpStatus.yes none
      { eventId := "1", player := sampleA, status := RsvpStatus.yes, updatedAt := 1, notes := none }
      (by decide) (by decide) rfl,
   updateRsvp_preserves_capacity.2 1 ((createEvent 0 emptyStore sampleEventTwo).1) "1" sampleA
      none RsvpStatus.no (by decide)⟩

/-! ### C4: the two-capacity scenario -/

/-- Store after creating the capacity-2 event. -/
def c4s1 : StoreState := (createEvent 0 emptyStore sampleEventTwo).1

/-- Result of RSVP-ing A `Yes`. -/
def c4r2 : StoreState × Except SvcError RsvpEntry :=
  updateRsvp 1 c4s1 "1" sampleA RsvpStatus.yes none

/-- Result of RSVP-ing B `Yes`. -/
def c4r3 : StoreState × Except SvcError RsvpEntry :=
  updateRsvp 2 c4r2.1 "1" sampleB RsvpStatus.yes none

/-- Result of RSVP-ing C `Yes` at capacity. -/
def c4r4 : StoreState × Except SvcError RsvpEntry :=
  updateRsvp 3 c4r3.1 "1" sampleC RsvpStatus.yes none

/-- Result of switching A to `No`. -/
def c4r5 : StoreState × Except SvcError RsvpEntry :=
  updateRsvp 4 c4r4.1 "1" sampleA RsvpStatus.no none

/-- Result of RSVP-ing C `Yes` after the freed spot. -/
def c4r6 : StoreState × Except SvcError RsvpEntry :=
  updateRsvp 5 c4r5.1 "1" sampleC RsvpStatus.yes none

/-- C4: on the empty store, create event "1" (`maxPlayers` 2, future date);
then A `Yes` succeeds, B `Yes` succeeds, C `Yes` fails with the capacity
validation error, A `No` succeeds, and a repeated C `Yes` succeeds. -/
theorem c4_capacity_scenario :
    (createEvent 0 emptyStore sampleEventTwo).2 = .ok sampleEventTwo
    ∧ c4r2.2 = .ok ⟨"1", sampleA, RsvpStatus.yes, 1, none⟩
    ∧ c4r3.2 = .ok ⟨"1", sampleB, RsvpStatus.yes, 2, none⟩
    ∧ c4r4.2 = .error (.validation "Event is at maximum capacity")
    ∧ c4r5.2 = .ok ⟨"1", sampleA, RsvpStatus.no, 4, none⟩
    ∧ c4r6.2 = .ok ⟨"1", sampleC, RsvpStatus.yes, 5, none⟩ := by
  refine ⟨rfl, rfl, rfl, rfl, rfl, rfl⟩

/-! ### C5: statistics bounds -/

/-- C5: for every store state, `getRsvpStats` satisfies
`confirmed + declined + maybe ≤ total`; both rates lie in `[0, 100]`; the
rates equal the stated quotients when `total > 0`; and both rates are `0`
when `total = 0`. -/
theorem getRsvpStats_bounds (s : StoreState) :
    (getRsvpStats s).confirmed + (getRsvpStats s).declined + (getRsvpStats s).maybe
        ≤ (getRsvpStats s).total
    ∧ 0 ≤ (getRsvpStats s).attendanceRate ∧ (getRsvpStats s).attendanceRate ≤ 100
    ∧ 0 ≤ (getRsvpStats s).responseRate ∧ (getRsvpStats s).responseRate ≤ 100
    ∧ (0 < (getRsvpStats s).total →
        (getRsvpStats s).attendanceRate
          = ((getRsvpStats s).confirmed : ℚ) / ((getRsvpStats s).total : ℚ) * 100
        ∧ (getRsvpStats s).responseRate
          = (((getRsvpStats s).confirmed + (getRsvpStats s).declined
              + (getRsvpStats s).maybe : ℕ) : ℚ) / ((getRsvpStats s).total : ℚ) * 100)
    ∧ ((getRsvpStats s).total = 0 →
        (getRsvpStats s).attendanceRate = 0 ∧ (getRsvpStats s).responseRate = 0) := by
  have hsum := count_three_statuses (avalues s.rsvpEntries)
  have hcle := List.countP_le_length
    (p := fun e => e.status = RsvpStatus.yes) (l := avalues s.rsvpEntries)
  by_cases h0 : (avalues s.rsvpEntries).length = 0
  · have hnil : avalues s.rsvpEntries = [] := List.length_eq_zero.mp h0
    simp [getRsvpStats, hnil]
  · have hpos : 0 < (avalues s.rsvpEntries).length := Nat.pos_of_ne_zero h0
    have hlen : (0 : ℚ) < ((avalues s.rsvpEntries).length : ℚ) := by exact_mod_cast hpos
    simp only [getRsvpStats, if_pos hpos]
    refine ⟨by omega, by positivity, ?_, by positivity, ?_, fun _ => ⟨by trivial, by trivial⟩,
      fun h2 => absurd h2 h0⟩
    · have hone : (((avalues s.rsvpEntries).countP
            (fun e => e.status = RsvpStatus.yes) : ℚ))
            / ((avalues s.rsvpEntries).length : ℚ) ≤ 1 :=
        (div_le_one hlen).mpr (by exact_mod_cast hcle)
      calc (((avalues s.rsvpEntries).countP (fun e => e.status = RsvpStatus.yes) : ℚ))
              / ((avalues s.rsvpEntries).length : ℚ) * 100
            ≤ 1 * 100 := mul_le_mul_of_nonneg_right hone (by norm_num)
        _ = 100 := one_mul 100
    · have hcast : (((avalues s.rsvpEntries).countP (fun e => e.status = RsvpStatus.yes)
            + (avalues s.rsvpEntries).countP (fun e => e.status = RsvpStatus.no)
            + (avalues s.rsvpEntries).countP (fun e => e.status = RsvpStatus.maybe) : ℕ) : ℚ)
          = ((avalues s.rsvpEntries).length : ℚ) := by
        rw [hsum]
      rw [hcast, div_self (ne_of_gt hlen), one_mul]

/-- Concrete two-entry store for the statistics witness. -/
def c5Store : StoreState :=
  ⟨[("1-a", ⟨"1", sampleA, RsvpStatus.yes, 1, none⟩),
    ("1-b", ⟨"1", sampleB, RsvpStatus.no, 2, none⟩)],
   [("1", sampleEventTwo)], [], []⟩

/-- C5 witness: the bounds theorem instantiated at a concrete store. -/
theorem getRsvpStats_bounds_witness :
    (getRsvpStats c5Store).confirmed + (getRsvpStats c5Store).declined
        + (getRsvpStats c5Store).maybe ≤ (getRsvpStats c5Store).total
    ∧ 0 ≤ (getRsvpStats c5Store).attendanceRate
    ∧ (getRsvpStats c5Store).attendanceRate ≤ 100
    ∧ 0 ≤ (getRsvpStats c5Store).responseRate
    ∧ (getRsvpStats c5Store).responseRate ≤ 100
    ∧ (0 < (getRsvpStats c5Store).total →
        (getRsvpStats c5Store).attendanceRate
          = ((getRsvpStats c5Store).confirmed : ℚ) / ((getRsvpStats c5Store).total : ℚ) * 100
        ∧ (getRsvpStats c5Store).responseRate
          = (((getRsvpStats c5Store).confirmed + (getRsvpStats c5Store).declined
              + (getRsvpStats c5Store).maybe : ℕ) : ℚ)
              / ((getRsvpStats c5Store).total : ℚ) * 100)
    ∧ ((getRsvpStats c5Store).total = 0 →
        (getRsvpStats c5Store).attendanceRate = 0
        ∧ (getRsvpStats c5Store).responseRate = 0) :=
  getRsvpStats_bounds c5Store

/-! ### C2: cleanupData with maxAge 0 -/

lemma cleanupGo_archive (cutoff : Time) (evs : List (String × Event)) (entries : AList RsvpEntry) :
    cleanupGo cutoff true false evs entries
      = (evs.map (fun p =>
            if p.2.date < cutoff then (p.1, { p.2 with archived := true }) else p),
         entries, 0, 0) := by
  induction evs with
  | nil => rfl
  | cons p t ih =>
      obtain ⟨k, ev⟩ := p
      by_cases h : ev.date < cutoff <;> simp [cleanupGo, h, ih]

lemma aget_map_snd {α : Type} (h : α → α) (m : AList α) (k : String) :
    aget (m.map (fun p => (p.1, h p.2))) k = (aget m k).map h := by
  induction m with
  | nil => rfl
  | cons p t ih =>
      by_cases hk : p.1 = k
      · rw [List.map_cons]
        unfold aget
        rw [List.find?_cons_of_pos _ (by simpa using hk),
          List.find?_cons_of_pos _ (by simpa using hk)]
        simp
      · rw [List.map_cons]
        unfold aget at ih ⊢
        rw [List.find?_cons_of_neg _ (by simpa using hk),
          List.find?_cons_of_neg _ (by simpa using hk)]
        exact ih

lemma arch_map_eq (cutoff : Time) :
    (fun (p : String × Event) =>
        if p.2.date < cutoff then (p.1, { p.2 with archived := true }) else p)
      = fun (p : String × Event) =>
        (p.1, if p.2.date < cutoff then { p.2 with archived := true } else p.2) := by
  funext p
  by_cases h : p.2.date < cutoff <;> simp [h]

/-- C2 (amended): because `cleanupData` reads the age limit with
`options.maxAge || 30`, passing `maxAge: 0` falls back to the 30-day default,
so the cutoff is `now − 30` days: with `archive: true` and no `includeRSVPs`
the call always returns `{events: 0, rsvps: 0}` and leaves the RSVP entries
untouched, and an event dated within the last 30 days — in particular one
dated yesterday — is left exactly as it was (not archived) and remains
retrievable via `getEvent`. -/
theorem cleanup_maxAge_zero (now : Time) (s : StoreState) (eid : String) (ev : Event)
    (hev : getEvent s eid = some ev) (hrecent : ¬ ev.date < now - 30 * dayMs) :
    (cleanupData now s { maxAge := some 0, archive := true, includeRSVPs := false }).2
        = .ok (0, 0)
    ∧ getEvent
        (cleanupData now s { maxAge := some 0, archive := true, includeRSVPs := false }).1 eid
        = some ev
    ∧ (cleanupData now s
        { maxAge := some 0, archive := true, includeRSVPs := false }).1.rsvpEntries
        = s.rsvpEntries := by
  unfold getEvent at hev ⊢
  unfold cleanupData
  dsimp only
  rw [cleanupGo_archive]
  refine ⟨rfl, ?_, rfl⟩
  rw [arch_map_eq]
  dsimp only
  have harch := aget_map_snd
    (fun ev' => if ev'.date < now - (if (0 : Int) = 0 then 30 else 0) * dayMs
      then { ev' with archived := true } else ev') s.events eid
  rw [hev] at harch
  refine harch.trans ?_
  simp [hrecent]

/-- Time of the concrete cleanup scenario (day 100). -/
def c2Now : Time := 100 * dayMs

/-- An unarchived event dated one day in the past relative to `c2Now`. -/
def c2Event : Event :=
  ⟨"1", "Game Night", "weekly", c2Now - dayMs, "Hall", 5, false⟩

/-- Store holding only the yesterday-dated event. -/
def c2Store : StoreState := ⟨[], [("1", c2Event)], [], []⟩

/-- C2 counterexample: on an event dated yesterday,
`cleanupData({maxAge: 0, archive: true})` does return `{events: 0, rsvps: 0}`
and the event stays retrievable, but the event is NOT marked archived — the
returned record still carries `archived = false`, because `maxAge: 0` is
falsy and the cutoff falls back to 30 days, leaving yesterday's event out of
range. -/
theorem c2_counterexample :
    (cleanupData c2Now c2Store { maxAge := some 0, archive := true }).2 = .ok (0, 0)
    ∧ getEvent (cleanupData c2Now c2Store { maxAge := some 0, archive := true }).1 "1"
        = some c2Event
    ∧ c2Event.archived = false :=
  ⟨rfl, rfl, rfl⟩

/-- C2 witness: the amended theorem instantiated at the concrete scenario. -/
theorem cleanup_maxAge_zero_witness :
    (cleanupData c2Now c2Store { maxAge := some 0, archive := true, includeRSVPs := false }).2
        = .ok (0, 0)
    ∧ getEvent
        (cleanupData c2Now c2Store
          { maxAge := some 0, archive := true, includeRSVPs := false }).1 "1"
        = some c2Event
    ∧ (cleanupData c2Now c2Store
        { maxAge := some 0, archive := true, includeRSVPs := false }).1.rsvpEntries
        = c2Store.rsvpEntries :=
  cleanup_maxAge_zero c2Now c2Store "1" c2Event rfl (by decide)

/-! ### C6: searchRsvps -/

lemma containsCI_empty (hay : String) : containsCI hay "" = true := by
  unfold containsCI
  cases hay.data.map Char.toLower with
  | nil => rfl
  | cons c t => rfl

lemma filter_chain2 {α : Type} (l : List α) (f g : α → Bool) :
    (l.filter f).filter g = l.filter (fun a => f a && g a) := by
  induction l with
  | nil => rfl
  | cons x xs ih => cases hf : f x <;> cases hg : g x <;> simp [List.filter_cons, hf, hg, ih]

lemma searchStageEventId_eq (o : SearchOptions) (h : o.eventId ≠ some "")
    (l : List RsvpEntry) :
    searchStageEventId o l = l.filter (eventIdMatches o.eventId) := by
  unfold searchStageEventId
  rcases ho : o.eventId with _ | eid
  · rw [show eventIdMatches none = (fun _ => true) from rfl, List.filter_true]
  · rw [ho] at h
    have he : strFalsy eid = false := strFalsy_false (fun he' => h (by rw [he']))
    dsimp only
    rw [he]
    rfl

lemma searchStagePlayerName_eq (o : SearchOptions) (l : List RsvpEntry) :
    searchStagePlayerName o l = l.filter (playerNameMatches o.playerName) := by
  unfold searchStagePlayerName
  rcases ho : o.playerName with _ | pn
  · rw [show playerNameMatches none = (fun _ => true) from rfl, List.filter_true]
  · cases hpn : strFalsy pn
    · dsimp only
      rw [hpn]
      rfl
    · have hempty : pn = "" := by simpa [strFalsy] using hpn
      subst hempty
      exact ((List.filter_congr (q := fun _ => true)
        (fun e _ => containsCI_empty e.player.name)).trans (List.filter_true l)).symm

lemma searchStageStatus_eq (o : SearchOptions) (l : List RsvpEntry) :
    searchStageStatus o l = l.filter (statusMatches o.status) := by
  unfold searchStageStatus
  rcases ho : o.status with _ | st
  · rw [show statusMatches none = (fun _ => true) from rfl, List.filter_true]
  · rfl

lemma searchStageStartDate_eq (s : StoreState) (o : SearchOptions) (l : List RsvpEntry) :
    searchStageStartDate s o l = l.filter (startDateMatches s o.eventId o.startDate) := by
  unfold searchStageStartDate
  rcases hsd : o.startDate with _ | sd
  · rw [show startDateMatches s o.eventId none = (fun _ => true) from rfl, List.filter_true]
  · rcases hoe : o.eventId with _ | eid
    · rw [show startDateMatches s none (some sd) = (fun _ => true) from rfl, List.filter_true]
    · dsimp only
      cases hev : aget s.events eid with
      | none =>
          have hpt : ∀ e : RsvpEntry, startDateMatches s (some eid) (some sd) e = true := by
            intro e
            unfold startDateMatches
            dsimp only
            rw [hev]
          exact ((List.filter_congr (q := fun _ => true) (fun e _ => hpt e)).trans
            (List.filter_true l)).symm
      | some ev =>
          have hpt : ∀ e : RsvpEntry,
              startDateMatches s (some eid) (some sd) e = decide (sd ≤ ev.date) := by
            intro e
            unfold startDateMatches
            dsimp only
            rw [hev]
          exact (List.filter_congr (fun e _ => hpt e)).symm

/-- C6 (amended): for every store state and every `SearchOptions` whose
provided `eventId`, if any, is non-empty (the source treats an empty-string
`eventId` as absent — truthiness), `searchRsvps` returns exactly the entries
passing each provided filter in the specification's sense (`specMatches`),
stably sorted ascending by `updatedAt`; the result is always sorted by
`updatedAt`, and empty options return every entry (up to that ordering). -/
theorem searchRsvps_spec (s : StoreState) (o : SearchOptions) (h : o.eventId ≠ some "") :
    searchRsvps s o = sortByUpdatedAt ((avalues s.rsvpEntries).filter (specMatches s o))
    ∧ List.Sorted updatedLe (searchRsvps s o)
    ∧ (searchRsvps s ⟨none, none, none, none⟩).Perm (avalues s.rsvpEntries) := by
  refine ⟨?_, ?_, ?_⟩
  · unfold searchRsvps specMatches
    rw [searchStageEventId_eq o h, searchStagePlayerName_eq, searchStageStatus_eq,
      searchStageStartDate_eq, filter_chain2, filter_chain2, filter_chain2]
  · have hs : ∀ l : List RsvpEntry, List.Sorted updatedLe (sortByUpdatedAt l) :=
      fun l => List.sorted_insertionSort updatedLe l
    unfold searchRsvps
    exact hs _
  · have hp : ∀ l : List RsvpEntry, (sortByUpdatedAt l).Perm l :=
      fun l => List.perm_insertionSort updatedLe l
    have hid : ∀ l : List RsvpEntry,
        searchStageStartDate s ⟨none, none, none, none⟩
          (searchStageStatus ⟨none, none, none, none⟩
            (searchStagePlayerName ⟨none, none, none, none⟩
              (searchStageEventId ⟨none, none, none, none⟩ l))) = l :=
      fun l => rfl
    unfold searchRsvps
    rw [hid]
    exact hp _

/-- Entry stored under event "e1" for the search scenarios. -/
def c6Entry : RsvpEntry := ⟨"e1", sampleA, RsvpStatus.yes, 0, none⟩

/-- One-entry store for the empty-eventId counterexample. -/
def c6Store : StoreState := ⟨[("e1-a", c6Entry)], [], [], []⟩

/-- Search options providing the empty string as `eventId`. -/
def c6Opts : SearchOptions := { eventId := some "" }

/-- C6 counterexample: with `eventId` provided as the empty string, the code
skips the eventId filter (JS truthiness) and returns the entry whose
`eventId` is "e1", although that entry does not pass the provided
exact-match filter — so `searchRsvps` does not return exactly the entries
passing each provided filter. -/
theorem c6_counterexample :
    searchRsvps c6Store c6Opts = [c6Entry]
    ∧ (avalues c6Store.rsvpEntries).filter (specMatches c6Store c6Opts) = [] :=
  ⟨rfl, rfl⟩

/-- Store with two entries and a matching event for the search witness. -/
def c6wStore : StoreState :=
  ⟨[("e1-a", c6Entry), ("e1-b", ⟨"e1", sampleB, RsvpStatus.no, 5, none⟩)],
   [("e1", ⟨"e1", "Game Night", "weekly", 7, "Hall", 4, false⟩)], [], []⟩

/-- Options exercising all four filters at once. -/
def c6wOpts : SearchOptions := ⟨some "e1", some "LI", some RsvpStatus.yes, some 0⟩

/-- C6 witness: the amended search theorem instantiated at a concrete store
and a concrete non-empty option set. -/
theorem searchRsvps_spec_witness :
    searchRsvps c6wStore c6wOpts
      = sortByUpdatedAt ((avalues c6wStore.rsvpEntries).filter (specMatches c6wStore c6wOpts))
    ∧ List.Sorted updatedLe (searchRsvps c6wStore c6wOpts)
    ∧ (searchRsvps c6wStore ⟨none, none, none, none⟩).Perm (avalues c6wStore.rsvpEntries) :=
  searchRsvps_spec c6wStore c6wOpts (by decide)

/-! ### C10: the capacity gate also blocks already-confirmed players -/

/-- C10: whenever the system-wide confirmed count has reached the event's
`maxPlayers`, every `updateRsvp` with status `Yes` by a valid player fails
with the capacity error — the count includes the player's own entry, so an
already-confirmed player cannot re-submit `Yes` (e.g. to change notes) while
at capacity. -/
theorem updateRsvp_capacity_blocks (now : Time) (s : StoreState) (eid : String)
    (p : Player) (notes : Option String) (ev : Event)
    (hev : aget s.events eid = some ev)
    (hp : validatePlayer p = .ok ())
    (hcap : ev.maxPlayers ≤ ((getConfirmedAttendees s).length : Int)) :
    updateRsvp now s eid p RsvpStatus.yes notes
      = (s, .error (.validation "Event is at maximum capacity")) := by
  unfold updateRsvp
  rw [hev, hp]
  dsimp only [validateRsvpStatus]
  rw [if_pos ⟨rfl, hcap⟩]

/-- Capacity-1 event for the re-submission scenario. -/
def c10Event : Event := ⟨"1", "Game Night", "weekly", dayMs, "Hall", 1, false⟩

/-- Store at capacity where the sole confirmed player is A. -/
def c10Store : StoreState :=
  ⟨[("1-a", ⟨"1", sampleA, RsvpStatus.yes, 0, none⟩)], [("1", c10Event)], [], []⟩

/-- C10 witness: player A, already the confirmed attendee filling the single
spot, cannot re-submit `Yes`. -/
theorem updateRsvp_capacity_blocks_witness :
    updateRsvp 5 c10Store "1" sampleA RsvpStatus.yes none
      = (c10Store, .error (.validation "Event is at maximum capacity")) :=
  updateRsvp_capacity_blocks 5 c10Store "1" sampleA none c10Event rfl rfl (by decide)

/-! ### C9: updatePlayer frame conditions -/

/-- C9: a successful `updatePlayer` rewrites exactly the embedded player
object of every entry whose player id matches, leaving each such entry's
key, `eventId`, `status`, `notes` and `updatedAt` unchanged (visible in the
rewriting function, which only replaces the `player` field), leaving every
other entry unchanged, and leaving the events, waitlist and reminder
collections untouched. -/
theorem updatePlayer_spec (s : StoreState) (pid : String) (u : PlayerUpdate)
    (hok : (updatePlayer s pid u).2 = .ok ()) :
    ∃ p0, getPlayerById s pid = some p0
      ∧ (updatePlayer s pid u).1
          = { s with rsvpEntries := s.rsvpEntries.map (fun q =>
              if q.2.player.id = pid
              then (q.1, { q.2 with player := applyPlayerUpdate p0 u }) else q) }
      ∧ (updatePlayer s pid u).1.events = s.events
      ∧ (updatePlayer s pid u).1.waitlist = s.waitlist
      ∧ (updatePlayer s pid u).1.reminders = s.reminders := by
  unfold updatePlayer at hok ⊢
  cases hp : getPlayerById s pid with
  | none => simp [hp] at hok
  | some p0 =>
      cases hv : validatePlayer (applyPlayerUpdate p0 u) with
      | error err => simp [hp, hv] at hok
      | ok _ => exact ⟨p0, rfl, by simp [hp, hv], by simp [hp, hv], by simp [hp, hv],
          by simp [hp, hv]⟩

/-- Store with entries of two players for the updatePlayer witness. -/
def c9Store : StoreState :=
  ⟨[("1-a", ⟨"1", sampleA, RsvpStatus.yes, 0, none⟩),
    ("1-b", ⟨"1", sampleB, RsvpStatus.no, 1, none⟩)],
   [("1", sampleEventTwo)], [], []⟩

/-- A name-only player update. -/
def c9Update : PlayerUpdate := { name := some "Alicia" }

/-- C9 witness: the frame theorem instantiated at a successful concrete
update of player "a". -/
theorem updatePlayer_spec_witness :
    ∃ p0, getPlayerById c9Store "a" = some p0
      ∧ (updatePlayer c9Store "a" c9Update).1
          = { c9Store with rsvpEntries := c9Store.rsvpEntries.map (fun q =>
              if q.2.player.id = "a"
              then (q.1, { q.2 with player := applyPlayerUpdate p0 c9Update }) else q) }
      ∧ (updatePlayer c9Store "a" c9Update).1.events = c9Store.events
      ∧ (updatePlayer c9Store "a" c9Update).1.waitlist = c9Store.waitlist
      ∧ (updatePlayer c9Store "a" c9Update).1.reminders = c9Store.reminders :=
  updatePlayer_spec c9Store "a" c9Update rfl

/-! ### C8: deleteEvent cascade and frame -/

/-- C8: deleting a stored event removes the event and every RSVP entry
referencing it while leaving the waitlist and reminder collections entirely
unchanged; afterwards `getEventRsvps` for that id fails with the
event-not-found validation error and `searchRsvps` over empty options
contains no entry for the event.  Deleting an unknown id fails with the same
validation error and changes nothing. -/
theorem deleteEvent_spec :
    (∀ (s : StoreState) (eid : String), ahas s.events eid = true →
      deleteEvent s eid
        = (⟨s.rsvpEntries.filter (fun p => p.2.eventId ≠ eid), adel s.events eid,
            s.waitlist, s.reminders⟩, .ok ())
      ∧ getEventRsvps (deleteEvent s eid).1 eid = .error (.validation "Event not found")
      ∧ (deleteEvent s eid).1.waitlist = s.waitlist
      ∧ (deleteEvent s eid).1.reminders = s.reminders
      ∧ ∀ e ∈ searchRsvps (deleteEvent s eid).1 ⟨none, none, none, none⟩, e.eventId ≠ eid)
    ∧ ∀ (s : StoreState) (eid : String), ahas s.events eid = false →
      deleteEvent s eid = (s, .error (.validation "Event not found")) := by
  constructor
  · intro s eid h
    unfold deleteEvent
    rw [if_pos h]
    refine ⟨rfl, ?_, rfl, rfl, ?_⟩
    · unfold getEventRsvps
      dsimp only
      rw [ahas_adel]
      rfl
    · intro e he
      have hp := List.perm_insertionSort updatedLe
        (avalues (s.rsvpEntries.filter (fun p => p.2.eventId ≠ eid)))
      have hmem : e ∈ avalues (s.rsvpEntries.filter (fun p => p.2.eventId ≠ eid)) :=
        hp.subset he
      obtain ⟨pr, hpr, hpe⟩ := List.mem_map.mp hmem
      have hne := (List.mem_filter.mp hpr).2
      rw [← hpe]
      simpa using hne
  · intro s eid h
    unfold deleteEvent
    rw [if_neg (by simp [h])]

/-- Store with one event, one entry, a waitlist and a reminder, exercising
every collection in the delete scenario. -/
def c8Store : StoreState :=
  ⟨[("1-a", ⟨"1", sampleA, RsvpStatus.yes, 0, none⟩)],
   [("1", sampleEventTwo)],
   [("1", [⟨"1", sampleC, 3, none⟩])],
   [("1", ⟨"1", 0, 5, 1⟩)]⟩

/-- C8 witness: both halves of the delete theorem instantiated concretely —
deleting the stored event "1", and failing to delete the unknown id "2". -/
theorem deleteEvent_spec_witness :
    (deleteEvent c8Store "1"
        = (⟨c8Store.rsvpEntries.filter (fun p => p.2.eventId ≠ "1"),
            adel c8Store.events "1", c8Store.waitlist, c8Store.reminders⟩, .ok ())
      ∧ getEventRsvps (deleteEvent c8Store "1").1 "1"
          = .error (.validation "Event not found")
      ∧ (deleteEvent c8Store "1").1.waitlist = c8Store.waitlist
      ∧ (deleteEvent c8Store "1").1.reminders = c8Store.reminders
      ∧ ∀ e ∈ searchRsvps (deleteEvent c8Store "1").1 ⟨none, none, none, none⟩,
          e.eventId ≠ "1")
    ∧ deleteEvent c8Store "2" = (c8Store, .error (.validation "Event not found")) :=
  ⟨deleteEvent_spec.1 c8Store "1" rfl, deleteEvent_spec.2 c8Store "2" rfl⟩

/-! ### C7: batchUpdateRsvps partial-failure semantics -/

lemma getPlayerById_mem_id {s : StoreState} {pid : String} {player : Player}
    (h : getPlayerById s pid = some player) : player.id = pid := by
  unfold getPlayerById at h
  cases hf : (avalues s.rsvpEntries).find? (fun e => e.player.id = pid) with
  | none => rw [hf] at h; cases h
  | some entry =>
      rw [hf] at h
      have hid := List.find?_some hf
      simp only [decide_eq_true_eq] at hid
      have hpe : entry.player = player := by simpa using h
      rw [← hpe]
      exact hid

lemma getPlayerById_none_aset {s : StoreState} {pid k : String} {v : RsvpEntry}
    (h : getPlayerById s pid = none) (hv : v.player.id ≠ pid) :
    getPlayerById { s with rsvpEntries := aset s.rsvpEntries k v } pid = none := by
  unfold getPlayerById at h ⊢
  rw [Option.map_eq_none'] at h ⊢
  rw [List.find?_eq_none] at h ⊢
  intro x hx
  rcases mem_avalues_aset hx with hmem | hxv
  · exact h x hmem
  · subst hxv
    simpa using hv

lemma batchStep_preserves_unknown {now : Time} {s s' : StoreState} {u : BatchRsvpUpdate}
    {e : RsvpEntry} {pid : String}
    (h : batchStep now s u = (s', .ok e)) (hp : getPlayerById s pid = none) :
    getPlayerById s' pid = none := by
  unfold batchStep at h
  cases hev : aget s.events u.eventId with
  | none => simp [hev] at h
  | some ev =>
      cases hpl : getPlayerById s u.playerId with
      | none => simp [hev, hpl] at h
      | some player =>
          simp only [hev, hpl] at h
          have hok2 : (updateRsvp now s u.eventId player u.status none).2 = .ok e := by
            rw [h]
          obtain ⟨hs1, he, _, _, _⟩ := updateRsvp_ok_state hok2
          have hs' : s' = (updateRsvp now s u.eventId player u.status none).1 := by
            rw [h]
          rw [hs', hs1]
          have hpid : player.id = u.playerId := getPlayerById_mem_id hpl
          refine getPlayerById_none_aset hp ?_
          intro hda
          rw [he] at hda
          dsimp only at hda
          rw [hpid] at hda
          rw [hda] at hpl
          rw [hpl] at hp
          cases hp

lemma batchUpdateRsvps_stops_aux (now : Time) (u : BatchRsvpUpdate)
    (rest : List BatchRsvpUpdate) (s1 : StoreState) (ev : Event)
    (hev : aget s1.events u.eventId = some ev) :
    ∀ (pre : List BatchRsvpUpdate) (s : StoreState) (res1 : List RsvpEntry),
      batchUpdateRsvps now s pre = (s1, .ok res1) →
      getPlayerById s u.playerId = none →
      batchUpdateRsvps now s (pre ++ u :: rest)
        = (s1, .error (.validation ("Player not found: " ++ u.playerId))) := by
  intro pre
  induction pre with
  | nil =>
      intro s res1 hpre hpl
      have hs : s = s1 := congrArg Prod.fst hpre
      subst hs
      rw [List.nil_append]
      unfold batchUpdateRsvps batchStep
      rw [hev, hpl]
  | cons u0 t ih =>
      intro s res1 hpre hpl
      rw [List.cons_append]
      unfold batchUpdateRsvps at hpre ⊢
      cases hstep : batchStep now s u0 with
      | mk s0 r =>
          rw [hstep] at hpre
          cases r with
          | error err => simp at hpre
          | ok entry =>
              dsimp only at hpre ⊢
              have hpl0 : getPlayerById s0 u.playerId = none :=
                batchStep_preserves_unknown hstep hpl
              cases hrec : batchUpdateRsvps now s0 t with
              | mk s2 r2 =>
                  rw [hrec] at hpre
                  cases r2 with
                  | error err2 => simp at hpre
                  | ok es =>
                      have hs2 : s2 = s1 := by
                        simpa using congrArg Prod.fst hpre
                      rw [ih s0 es (by rw [hrec, hs2]) hpl0]

/-- C7: in `batchUpdateRsvps`, a batch item whose `playerId` matches no
player embedded in any existing RSVP entry fails with the
"Player not found" validation error (once its event resolves); processing
stops at that first failing item — the items after it are never attempted —
and the resulting in-memory state is exactly the state after the successful
prefix, with no rollback. -/
theorem batchUpdateRsvps_player_not_found (now : Time) (s : StoreState)
    (pre : List BatchRsvpUpdate) (u : BatchRsvpUpdate) (rest : List BatchRsvpUpdate)
    (s1 : StoreState) (res1 : List RsvpEntry) (ev : Event)
    (hpre : batchUpdateRsvps now s pre = (s1, .ok res1))
    (hev : aget s1.events u.eventId = some ev)
    (hpl : getPlayerById s u.playerId = none) :
    batchUpdateRsvps now s (pre ++ u :: rest)
      = (s1, .error (.validation ("Player not found: " ++ u.playerId))) :=
  batchUpdateRsvps_stops_aux now u rest s1 ev hev pre s res1 hpre hpl

/-- Store with one existing (declined) entry of player A. -/
def c7Store : StoreState :=
  ⟨[("1-a", ⟨"1", sampleA, RsvpStatus.no, 0, none⟩)], [("1", sampleEventTwo)], [], []⟩

/-- State after the successful one-item prefix (player A set to `Yes`). -/
def c7s1 : StoreState :=
  (batchUpdateRsvps 9 c7Store [⟨"1", "a", RsvpStatus.yes, none⟩]).1

/-- C7 witness: a three-item batch whose middle item names the unknown
player "zz" stops there with the player-not-found error, leaving exactly the
prefix applied. -/
theorem batchUpdateRsvps_player_not_found_witness :
    batchUpdateRsvps 9 c7Store
        ([⟨"1", "a", RsvpStatus.yes, none⟩]
          ++ (⟨"1", "zz", RsvpStatus.yes, none⟩ : BatchRsvpUpdate)
            :: [⟨"1", "a", RsvpStatus.no, none⟩])
      = (c7s1, .error (.validation ("Player not found: " ++ "zz"))) :=
  batchUpdateRsvps_player_not_found 9 c7Store [⟨"1", "a", RsvpStatus.yes, none⟩]
    ⟨"1", "zz", RsvpStatus.yes, none⟩ [⟨"1", "a", RsvpStatus.no, none⟩] c7s1
    [⟨"1", sampleA, RsvpStatus.yes, 9, none⟩] sampleEventTwo rfl rfl rfl

/-! ### C1: the save/load round-trip loses Date values -/

/-- An event dated at the epoch instant, for the round-trip scenario. -/
def c1Event : Event := ⟨"1", "Game Night", "weekly", 0, "Hall", 2, false⟩

/-- A populated snapshot holding one event. -/
def c1Snapshot : StoreState := ⟨[], [("1", c1Event)], [], []⟩

/-- C1 (code bug, evaluated at the failing input): `save` serializes the
event's `date` through `JSON.stringify` (which renders a `Date` as its ISO
string), and `load` parses with no reviver and only re-wraps the pair lists
in `new Map(...)` — so the loaded event's `date` field is the plain ISO
string, not a reconstructed `Date` instant, and the loaded collections are
not equal to the originals.  This contradicts the stated contract that
`save` then `load` round-trips all fields with date fields reconstructed as
equivalent instants. -/
theorem save_load_loses_dates :
    aget (inMemoryJs c1Snapshot).events "1"
        = some (.vobj [("id", .vstr "1"), ("name", .vstr "Game Night"),
            ("description", .vstr "weekly"), ("date", .vdate 0),
            ("location", .vstr "Hall"), ("maxPlayers", .vnum 2)])
    ∧ aget (saveThenLoad c1Snapshot).events "1"
        = some (.vobj [("id", .vstr "1"), ("name", .vstr "Game Night"),
            ("description", .vstr "weekly"), ("date", .vstr (isoString 0)),
            ("location", .vstr "Hall"), ("maxPlayers", .vnum 2)])
    ∧ JsVal.vstr (isoString 0) ≠ JsVal.vdate 0
    ∧ saveThenLoad c1Snapshot ≠ inMemoryJs c1Snapshot := by
  refine ⟨rfl, ?_, fun hcontra => JsVal.noConfusion hcontra, fun hcontra => ?_⟩
  · simp [saveThenLoad, c1Snapshot, c1Event, eventToJs, jsonRoundTrip, jsonRoundTripFields,
      aget, isoString]
  · have h1 := congrArg (fun d => aget d.events "1") hcontra
    simp [saveThenLoad, inMemoryJs, c1Snapshot, c1Event, eventToJs, jsonRoundTrip,
      jsonRoundTripFields, aget, isoString] at h1

end RsvpSpec
